import Mathlib

/-!
ember-operator: selection-event monitor and peer directory

A shallow embedding of `listener.go`:

* `FetchOperatorIPs`, the peer directory query, as a pure function of the
  answers of the Ethereum node;
* the body of the `for { select { ... } }` loop of `ListenOperatorSelected`
  as a step function on the program state (the package-level `aggregator`
  variable and whether the process is still alive), which returns the
  observable effects of the iteration (standard output, log lines, secret
  generation, calls of `SplitSecret`, `FetchOperatorIPs`, `sendPrivateKey`).

Library code (go-ethereum ABI coding, `common.Address.Hex`) and the helpers
of the repository that `listener.go` calls but does not define
(`SplitSecret`, `pvtKeyToString`, `sendPrivateKey`) are parameters of the
model, collected in `Lib`; `sendPrivateKey` is recorded as an effect.
-/

namespace EmberOperator

/-! ## Data -/

/-- A Go byte slice. -/
abbrev Bytes := List Nat

/-- A Go `error` value, represented by its message. -/
abbrev Err := String

/-- The type `common.Address` (a 20-byte value, read as a number). -/
abbrev Address := Nat

/-- Modelled from the spec: the element type of the slice returned by
`SplitSecret` (its declaration is not in `listener.go`); the data model calls
a share a pair (index, evaluation-value). -/
structure Share where
  index : Nat
  value : Nat
deriving DecidableEq, Repr

/-- A Go `map[common.Address]string`, as an association list with pairwise
distinct keys. -/
abbrev GoMap := List (Address × String)

/-- The map read `m[k]` (with the presence flag). -/
def GoMap.lookup : GoMap → Address → Option String
  | [], _ => none
  | (a, v) :: rest, k => if a = k then some v else GoMap.lookup rest k

/-- The map write `m[k] = v`. -/
def GoMap.set : GoMap → Address → String → GoMap
  | [], k, v => [(k, v)]
  | (a, w) :: rest, k, v =>
    if a = k then (a, v) :: rest else (a, w) :: GoMap.set rest k v

/-- The Ethereum node behind `rpcURL`: whether `ethclient.Dial` succeeds and
what `client.CallContract` answers for a target address and call data (the
answers do not change while one query runs). -/
structure Chain where
  dial : Except Err Unit
  callContract : Address → Bytes → Except Err Bytes

/-- Functions that `listener.go` calls and does not define. -/
structure Lib where
  /-- The method `common.Address.Hex`. -/
  Hex : Address → String
  /-- The call `abi.JSON(strings.NewReader(fetchOperatorIPsABI))`. -/
  fetchOperatorIPsABI : Except Err Unit
  /-- The call `parsedABI.Pack("getAllOperators")`. -/
  packGetAllOperators : Except Err Bytes
  /-- The call `parsedABI.Pack("getOperatorIP", op)`. -/
  packGetOperatorIP : Address → Except Err Bytes
  /-- The call `parsedABI.UnpackIntoInterface(&event, "OperatorSelected", data)`. -/
  unpackOperatorSelected : Bytes → Except Err Address
  /-- The call `parsedABI.UnpackIntoInterface(&operators, "getAllOperators", out)`. -/
  unpackGetAllOperators : Bytes → Except Err (List Address)
  /-- The call `parsedABI.UnpackIntoInterface(&ip, "getOperatorIP", out)`. -/
  unpackGetOperatorIP : Bytes → Except Err String
  /-- The repository's `SplitSecret(secret, n, t)`; the last argument is the
  randomness it draws. -/
  SplitSecret : Nat → Nat → Nat → List Nat → List Share
  /-- The repository's `pvtKeyToString`. -/
  pvtKeyToString : Share → String
  /-- The text `fmt.Println` prints for the slice of shares. -/
  showShares : List Share → String

/-! ## `FetchOperatorIPs` -/

/-- The closure `call` of `FetchOperatorIPs`: pack, then `CallContract`. -/
def call (chain : Chain) (contractAddress : Address) (packed : Except Err Bytes) :
    Except Err Bytes :=
  match packed with
  | .error err => .error err
  | .ok data => chain.callContract contractAddress data

/-- What a run of `FetchOperatorIPs` yields: its return value and the lines it
wrote to the log or to standard output. -/
structure FetchOutcome where
  value : Except Err GoMap
  written : List String

/-- The loop `for _, op := range operators` of `FetchOperatorIPs`, threading the
`result` map and the lines written so far. -/
def fetchLoop (lib : Lib) (chain : Chain) (contractAddress : Address) :
    List Address → GoMap → List String → GoMap × List String
  | [], result, written => (result, written)
  | op :: rest, result, written =>
    match call chain contractAddress (lib.packGetOperatorIP op) with
    | .error _ => fetchLoop lib chain contractAddress rest result written
    | .ok out =>
      match lib.unpackGetOperatorIP out with
      | .ok ip => fetchLoop lib chain contractAddress rest (GoMap.set result op ip) written
      | .error _ => fetchLoop lib chain contractAddress rest result written

/-- The function `FetchOperatorIPs(rpcURL, contractAddress)`. -/
def FetchOperatorIPs (lib : Lib) (chain : Chain) (contractAddress : Address) : FetchOutcome :=
  match chain.dial with
  | .error err => ⟨.error err, []⟩
  | .ok _ =>
    match lib.fetchOperatorIPsABI with
    | .error err => ⟨.error err, []⟩
    | .ok _ =>
      match call chain contractAddress lib.packGetAllOperators with
      | .error err => ⟨.error err, []⟩
      | .ok out =>
        match lib.unpackGetAllOperators out with
        | .error err => ⟨.error err, []⟩
        | .ok operators =>
          let r := fetchLoop lib chain contractAddress operators [] []
          ⟨.ok r.1, r.2⟩

/-! ## The loop of `ListenOperatorSelected` -/

/-- Whether the process is alive: `exited` after `log.Fatal`, `panicked` after
a run-time panic. -/
inductive Status where
  | running
  | exited
  | panicked
deriving DecidableEq, Repr

/-- The program state the loop reads and writes. -/
structure State where
  aggregator : String
  status : Status
deriving DecidableEq, Repr

/-- Observable actions of one loop iteration, in program order. -/
inductive Effect where
  /-- A line written by `fmt.Println` or `fmt.Printf`. -/
  | stdout (line : String)
  /-- A message written by `log.Println` or `log.Fatal`. -/
  | logged (line : String)
  /-- The call `btcec.NewPrivateKey`, with the scalar `D` it produced. -/
  | newPrivateKey (d : Nat)
  /-- The call `btcec.NewPrivateKey` when it returns an error and no key. -/
  | newPrivateKeyFailed (err : Err)
  /-- The call `SplitSecret(secret, n, t)`. -/
  | splitSecret (secret n t : Nat)
  /-- The call `FetchOperatorIPs(rpcURL, contractAddress)`. -/
  | fetchOperatorIPs (contractAddress : Address)
  /-- The call `sendPrivateKey(ip, sender, key)`. -/
  | sendPrivateKey (ip sender key : String)
  /-- A run-time panic (index out of range, nil pointer dereference). -/
  | panic
deriving DecidableEq, Repr

/-- What the outside world supplies while one log is processed, when
`btcec.NewPrivateKey` returns a key. -/
structure World where
  /-- The scalar `privateKey.D` of the key made by `btcec.NewPrivateKey`. -/
  D : Nat
  /-- The randomness `SplitSecret` draws. -/
  coeffs : List Nat
  /-- The node that answers `FetchOperatorIPs`. -/
  chain : Chain
  /-- The order in which `for addr, ip := range ips` visits the map. -/
  rangeOrder : GoMap → List (Address × String)

/-- The type `types.Log`, reduced to the field the loop reads. -/
structure Log where
  Data : Bytes

/-- One outcome of the `select`: an error on `sub.Err()` or a log on `logs`.
A log arrives either in a world where `btcec.NewPrivateKey` returns a key
(`log`) or at a time when it returns an error (`logNoKey`). -/
inductive Tick where
  | subErr (err : Err)
  | log (vLog : Log) (w : World)
  | logNoKey (vLog : Log) (keyErr : Err)

/-- The log an outcome of the `select` delivers, if it delivers one. -/
def Tick.delivered : Tick → Option Log
  | .subErr _ => none
  | .log vLog _ => some vLog
  | .logNoKey vLog _ => some vLog

/-- The address `common.HexToAddress("0xYourContractAddress")`: no byte of the
text decodes as hexadecimal, which leaves the zero address. -/
def yourContractAddress : Address := 0

/-- The loop `for addr, ip := range ips` with the variable `i`, which the body
reads and never changes. -/
def sendLoop (lib : Lib) (ethAddress : String) (shares : List Share) (i : Nat) :
    List (Address × String) → Status × List Effect
  | [] => (.running, [])
  | (addr, ip) :: rest =>
    match shares[i]? with
    | none => (.panicked, [.panic])
    | some share =>
      ((sendLoop lib ethAddress shares i rest).1,
        .sendPrivateKey ip ethAddress (lib.pvtKeyToString share)
          :: .stdout (lib.Hex addr ++ " => " ++ ip)
          :: (sendLoop lib ethAddress shares i rest).2)

/-- The effects of the leader branch, once the key is generated, up to and
including the directory call. -/
def leaderPreamble (lib : Lib) (sel : Address) (w : World) : List Effect :=
  [.stdout ("📢 Operator Selected: " ++ lib.Hex sel),
   .newPrivateKey w.D,
   .stdout ("Private Key: " ++ toString w.D),
   .splitSecret w.D 5 3,
   .stdout ("Shares: " ++ lib.showShares (lib.SplitSecret w.D 5 3 w.coeffs)),
   .fetchOperatorIPs yourContractAddress]

/-- The case `vLog := <-logs` of the `select`. The argument `key` is the result
of `btcec.NewPrivateKey`: the world around a generated key, or the error. The
code discards the error, so that `privateKey` is nil and reading
`privateKey.D` panics. -/
def processLog (lib : Lib) (ethAddress : String) (aggregator : String) (vLog : Log)
    (key : Except Err World) : State × List Effect :=
  match lib.unpackOperatorSelected vLog.Data with
  | .error err => (⟨aggregator, .running⟩, [.logged ("Failed to unpack event: " ++ err)])
  | .ok sel =>
    if lib.Hex sel = ethAddress then
      match key with
      | .error keyErr =>
        (⟨aggregator, .panicked⟩,
          [.stdout ("📢 Operator Selected: " ++ lib.Hex sel), .newPrivateKeyFailed keyErr,
           .panic])
      | .ok w =>
        match (FetchOperatorIPs lib w.chain yourContractAddress).value with
        | .error err =>
          (⟨aggregator, .exited⟩,
            leaderPreamble lib sel w
              ++ (FetchOperatorIPs lib w.chain yourContractAddress).written.map Effect.logged
              ++ [.logged err])
        | .ok ips =>
          (⟨aggregator,
              (sendLoop lib ethAddress (lib.SplitSecret w.D 5 3 w.coeffs) 0
                (w.rangeOrder ips)).1⟩,
            leaderPreamble lib sel w
              ++ (FetchOperatorIPs lib w.chain yourContractAddress).written.map Effect.logged
              ++ (sendLoop lib ethAddress (lib.SplitSecret w.D 5 3 w.coeffs) 0
                    (w.rangeOrder ips)).2)
    else
      (⟨lib.Hex sel, .running⟩, [.stdout ("📢 Operator Selected: " ++ lib.Hex sel)])

/-- One iteration of the `for { select { ... } }` loop; a process that has
exited or panicked does nothing more. -/
def step (lib : Lib) (ethAddress : String) (s : State) (t : Tick) : State × List Effect :=
  match s.status with
  | .running =>
    match t with
    | .subErr err => (⟨s.aggregator, .exited⟩, [.logged ("Subscription error:" ++ err)])
    | .log vLog w => processLog lib ethAddress s.aggregator vLog (.ok w)
    | .logNoKey vLog keyErr => processLog lib ethAddress s.aggregator vLog (.error keyErr)
  | _ => (s, [])

/-- The loop of `ListenOperatorSelected` over the successive outcomes of the
`select`: the final state and all effects in order. -/
def loop (lib : Lib) (ethAddress : String) (s : State) : List Tick → State × List Effect
  | [] => (s, [])
  | t :: ts =>
    ((loop lib ethAddress (step lib ethAddress s t).1 ts).1,
      (step lib ethAddress s t).2 ++ (loop lib ethAddress (step lib ethAddress s t).1 ts).2)

/-- What the start of `ListenOperatorSelected` meets: the results of
`ethclient.Dial`, `abi.JSON` and `client.SubscribeFilterLogs`. -/
structure Startup where
  dial : Except Err Unit
  operatorSelectedEventABI : Except Err Unit
  subscribe : Except Err Unit

/-- The function `ListenOperatorSelected`: set-up, then the loop. -/
def ListenOperatorSelected (lib : Lib) (ethAddress : String) (boot : Startup)
    (aggregator : String) (ticks : List Tick) : State × List Effect :=
  match boot.dial with
  | .error err => (⟨aggregator, .exited⟩, [.logged ("Failed to connect to Ethereum client:" ++ err)])
  | .ok _ =>
    match boot.operatorSelectedEventABI with
    | .error err => (⟨aggregator, .exited⟩, [.logged ("Failed to parse ABI:" ++ err)])
    | .ok _ =>
      match boot.subscribe with
      | .error err => (⟨aggregator, .exited⟩, [.logged ("Failed to subscribe to logs:" ++ err)])
      | .ok _ =>
        ((loop lib ethAddress ⟨aggregator, .running⟩ ticks).1,
          .stdout "🟢 Listening for OperatorSelected events..."
            :: (loop lib ethAddress ⟨aggregator, .running⟩ ticks).2)

/-! ## Reading a trace of effects -/

/-- The secrets generated, in order. -/
def secretsGenerated (effs : List Effect) : List Nat :=
  effs.filterMap fun e =>
    match e with
    | .newPrivateKey d => some d
    | _ => none

/-- The number of calls of `btcec.NewPrivateKey`, the first statement of the
leader branch, whether or not they returned a key. -/
def keyGenerationCalls (effs : List Effect) : Nat :=
  (effs.filterMap fun e =>
    match e with
    | .newPrivateKey _ => some ()
    | .newPrivateKeyFailed _ => some ()
    | _ => none).length

/-- The calls of `SplitSecret`, in order, as (secret, n, t). -/
def splitCalls (effs : List Effect) : List (Nat × Nat × Nat) :=
  effs.filterMap fun e =>
    match e with
    | .splitSecret secret n t => some (secret, n, t)
    | _ => none

/-- The calls of `FetchOperatorIPs`, in order, by contract address. -/
def directoryQueries (effs : List Effect) : List Address :=
  effs.filterMap fun e =>
    match e with
    | .fetchOperatorIPs a => some a
    | _ => none

/-- The calls of `sendPrivateKey`, in order, as (ip, sender, key). -/
def sends (effs : List Effect) : List (String × String × String) :=
  effs.filterMap fun e =>
    match e with
    | .sendPrivateKey ip sender key => some (ip, sender, key)
    | _ => none

/-- The lines written to standard output, in order. -/
def stdoutLines (effs : List Effect) : List String :=
  effs.filterMap fun e =>
    match e with
    | .stdout line => some line
    | _ => none

/-- The messages written through the `log` package, in order. -/
def logLines (effs : List Effect) : List String :=
  effs.filterMap fun e =>
    match e with
    | .logged line => some line
    | _ => none

/-- The endpoint the registry has for an operator: the answer of the
`getOperatorIP` call when the call and its decoding both succeed. -/
def endpointOf (lib : Lib) (chain : Chain) (contractAddress : Address) (op : Address) :
    Option String :=
  match call chain contractAddress (lib.packGetOperatorIP op) with
  | .error _ => none
  | .ok out =>
    match lib.unpackGetOperatorIP out with
    | .ok ip => some ip
    | .error _ => none

/-- Whether an outcome of the `select` delivers a well-formed event that
selects the local identity. -/
def selectsLocal (lib : Lib) (ethAddress : String) (t : Tick) : Bool :=
  match t.delivered with
  | none => false
  | some vLog =>
    match lib.unpackOperatorSelected vLog.Data with
    | .ok sel => decide (lib.Hex sel = ethAddress)
    | .error _ => false

/-- The number of deliveries, among the outcomes of the `select`, of a
well-formed event that selects the local identity. -/
def leaderDeliveries (lib : Lib) (ethAddress : String) (ticks : List Tick) : Nat :=
  ticks.countP (selectsLocal lib ethAddress)

/-- The peers a delivery has shares sent to, as (endpoint, sender): for a
well-formed event that selects the local identity, the peers of the map the
directory returns, in the order of the iteration; none otherwise. -/
def deliveryPeers (lib : Lib) (ethAddress : String) : Tick → List (String × String)
  | .log vLog w =>
    match lib.unpackOperatorSelected vLog.Data with
    | .ok sel =>
      if lib.Hex sel = ethAddress then
        match (FetchOperatorIPs lib w.chain yourContractAddress).value with
        | .ok ips => (w.rangeOrder ips).map fun p => (p.2, ethAddress)
        | .error _ => []
      else []
    | .error _ => []
  | _ => []

/-! ## A concrete instance of the collaborators

Used to evaluate the model on explicit inputs. -/

/-- The order of the secp256k1 group, the field of the shares. -/
def curveOrder : Nat :=
  0xFFFFFFFFFFFFFFFFFFFFFFFFFFFFFFFEBAAEDCE6AF48A03BBFD25E8CD0364141

/-- Horner evaluation over the field of the polynomial with the coefficients
`a_0, a_1, ...` at `x`. -/
def evalPoly : List Nat → Nat → Nat
  | [], _ => 0
  | a :: rest, x => (a + x * evalPoly rest x) % curveOrder

/-- Modelled from the spec: `SplitSecret`, whose source file is not among the
sources. A polynomial with constant term `secret` and `t - 1` drawn
coefficients is evaluated at the indices `1..n`; outside `1 ≤ t ≤ n`, where
the spec has the split fail, no share is returned. -/
def SplitSecret (secret n t : Nat) (coeffs : List Nat) : List Share :=
  if 1 ≤ t ∧ t ≤ n then
    (List.range n).map fun k => ⟨k + 1, evalPoly (secret :: coeffs.take (t - 1)) (k + 1)⟩
  else []

/-- The number a byte string denotes, most significant byte first. -/
def fromBigEndian (data : Bytes) : Nat :=
  data.foldl (fun acc b => acc * 256 + b) 0

/-- A sample instance of `Lib`: addresses print as `0x` and their hexadecimal
digits, an event carries one 32-byte word, the registry answers are short
byte strings (`1 :: operators` for the operator list, `[k]` for the endpoint
`10.0.0.k`), shares come from the spec's `SplitSecret` and print as their
value. -/
def sampleLib : Lib where
  Hex := fun a => "0x" ++ String.mk (Nat.toDigits 16 a)
  fetchOperatorIPsABI := .ok ()
  packGetAllOperators := .ok [0]
  packGetOperatorIP := fun op => .ok [1, op]
  unpackOperatorSelected := fun data =>
    if data.length = 32 then .ok (fromBigEndian data)
    else .error "abi: cannot unmarshal OperatorSelected"
  unpackGetAllOperators := fun out =>
    match out with
    | 1 :: operators => .ok operators
    | _ => .error "abi: attempting to unmarshall an empty string while arguments are expected"
  unpackGetOperatorIP := fun out =>
    match out with
    | [k] => .ok ("10.0.0." ++ toString k)
    | _ => .error "abi: cannot unmarshal string"
  SplitSecret := SplitSecret
  pvtKeyToString := fun share => toString share.value
  showShares := fun shares => toString (shares.map fun share => share.value)

/-- A sample registry: the operators it lists, each with the last octet of
its endpoint or without an endpoint (the `getOperatorIP` call then fails). -/
def sampleChain (operators : List (Address × Option Nat)) : Chain where
  dial := .ok ()
  callContract := fun _ data =>
    match data with
    | [0] => .ok (1 :: operators.map Prod.fst)
    | [1, op] =>
      match operators.lookup op with
      | some (some k) => .ok [k]
      | _ => .error "execution reverted"
    | _ => .error "execution reverted"

/-- A node that cannot be reached. -/
def downChain : Chain where
  dial := .error "dial tcp: connection refused"
  callContract := fun _ _ => .error "connection refused"

/-- The log data of an `OperatorSelected` event for the operator `a`. -/
def eventData (a : Address) : Bytes := List.replicate 31 0 ++ [a]

/-- The local identity used in the examples. -/
def localAddress : Address := 10

/-- A world whose registry lists the given operators and whose map iteration
follows the stored order. -/
def sampleWorld (d : Nat) (coeffs : List Nat) (operators : List (Address × Option Nat)) : World where
  D := d
  coeffs := coeffs
  chain := sampleChain operators
  rangeOrder := fun m => m

/-- A world whose node cannot be reached. -/
def downWorld (d : Nat) (coeffs : List Nat) : World where
  D := d
  coeffs := coeffs
  chain := downChain
  rangeOrder := fun m => m

/-! ## Sample inputs -/

/-- The local identity as the program holds it in `ethAddress`. -/
def sampleEth : String := sampleLib.Hex localAddress

/-- A log announcing the selection of the local node. -/
def localLog : Log := ⟨eventData localAddress⟩

/-- A log announcing the selection of operator 7. -/
def otherLog : Log := ⟨eventData 7⟩

/-- A log whose data is too short to hold an event. -/
def shortLog : Log := ⟨[1, 2, 3]⟩

/-- A registry with two operators, both with an endpoint. -/
def twoPeers : List (Address × Option Nat) := [(1, some 1), (2, some 2)]

/-! ## Lemmas about the model -/

theorem secretsGenerated_append (a b : List Effect) :
    secretsGenerated (a ++ b) = secretsGenerated a ++ secretsGenerated b := by
  simp [secretsGenerated]

theorem splitCalls_append (a b : List Effect) :
    splitCalls (a ++ b) = splitCalls a ++ splitCalls b := by
  simp [splitCalls]

theorem directoryQueries_append (a b : List Effect) :
    directoryQueries (a ++ b) = directoryQueries a ++ directoryQueries b := by
  simp [directoryQueries]

theorem sends_append (a b : List Effect) : sends (a ++ b) = sends a ++ sends b := by
  simp [sends]

theorem stdoutLines_append (a b : List Effect) :
    stdoutLines (a ++ b) = stdoutLines a ++ stdoutLines b := by
  simp [stdoutLines]

theorem logLines_append (a b : List Effect) :
    logLines (a ++ b) = logLines a ++ logLines b := by
  simp [logLines]

/-- The directory loop writes nothing of its own. -/
theorem fetchLoop_written (lib : Lib) (chain : Chain) (c : Address) (ops : List Address)
    (m : GoMap) (written : List String) :
    (fetchLoop lib chain c ops m written).2 = written := by
  induction ops generalizing m with
  | nil => rfl
  | cons op rest ih =>
    simp only [fetchLoop]
    split
    · exact ih m
    · split
      · exact ih _
      · exact ih m

/-- The directory query writes nothing to the log or to standard output. -/
theorem FetchOperatorIPs_written (lib : Lib) (chain : Chain) (c : Address) :
    (FetchOperatorIPs lib chain c).written = [] := by
  unfold FetchOperatorIPs
  split
  · rfl
  · split
    · rfl
    · split
      · rfl
      · split
        · rfl
        · exact fetchLoop_written lib chain c _ [] []

/-- With a share at index `i`, the send loop finishes and makes, per peer, one
call of `sendPrivateKey` with that share and one output line. -/
theorem sendLoop_of_share (lib : Lib) (eth : String) (shares : List Share) (i : Nat)
    (share : Share) (h : shares[i]? = some share) (peers : List (Address × String)) :
    sendLoop lib eth shares i peers =
      (.running, peers.flatMap fun p =>
        [.sendPrivateKey p.2 eth (lib.pvtKeyToString share),
         .stdout (lib.Hex p.1 ++ " => " ++ p.2)]) := by
  induction peers with
  | nil => rfl
  | cons p rest ih =>
    obtain ⟨addr, ip⟩ := p
    simp only [sendLoop, h, ih, List.flatMap_cons]
    rfl

theorem sends_peerEffects (lib : Lib) (eth key : String) (peers : List (Address × String)) :
    sends (peers.flatMap fun p =>
        [.sendPrivateKey p.2 eth key, .stdout (lib.Hex p.1 ++ " => " ++ p.2)])
      = peers.map fun p => (p.2, eth, key) := by
  induction peers with
  | nil => rfl
  | cons p rest ih =>
    rw [List.flatMap_cons, sends_append, ih]
    rfl

theorem stdoutLines_peerEffects (lib : Lib) (eth key : String) (peers : List (Address × String)) :
    stdoutLines (peers.flatMap fun p =>
        [.sendPrivateKey p.2 eth key, .stdout (lib.Hex p.1 ++ " => " ++ p.2)])
      = peers.map fun p => lib.Hex p.1 ++ " => " ++ p.2 := by
  induction peers with
  | nil => rfl
  | cons p rest ih =>
    rw [List.flatMap_cons, stdoutLines_append, ih]
    rfl

theorem secretsGenerated_peerEffects (lib : Lib) (eth key : String)
    (peers : List (Address × String)) :
    secretsGenerated (peers.flatMap fun p =>
        [.sendPrivateKey p.2 eth key, .stdout (lib.Hex p.1 ++ " => " ++ p.2)]) = [] := by
  induction peers with
  | nil => rfl
  | cons p rest ih =>
    rw [List.flatMap_cons, secretsGenerated_append, ih]
    rfl

theorem splitCalls_peerEffects (lib : Lib) (eth key : String)
    (peers : List (Address × String)) :
    splitCalls (peers.flatMap fun p =>
        [.sendPrivateKey p.2 eth key, .stdout (lib.Hex p.1 ++ " => " ++ p.2)]) = [] := by
  induction peers with
  | nil => rfl
  | cons p rest ih =>
    rw [List.flatMap_cons, splitCalls_append, ih]
    rfl

theorem logLines_peerEffects (lib : Lib) (eth key : String)
    (peers : List (Address × String)) :
    logLines (peers.flatMap fun p =>
        [.sendPrivateKey p.2 eth key, .stdout (lib.Hex p.1 ++ " => " ++ p.2)]) = [] := by
  induction peers with
  | nil => rfl
  | cons p rest ih =>
    rw [List.flatMap_cons, logLines_append, ih]
    rfl

/-- The send loop generates no secret and does not call `SplitSecret`. -/
theorem sendLoop_no_secret (lib : Lib) (eth : String) (shares : List Share) (i : Nat)
    (peers : List (Address × String)) :
    secretsGenerated (sendLoop lib eth shares i peers).2 = [] ∧
      splitCalls (sendLoop lib eth shares i peers).2 = [] ∧
      directoryQueries (sendLoop lib eth shares i peers).2 = [] := by
  induction peers with
  | nil => exact ⟨rfl, rfl, rfl⟩
  | cons p rest ih =>
    obtain ⟨addr, ip⟩ := p
    simp only [sendLoop]
    cases shares[i]? with
    | none => exact ⟨rfl, rfl, rfl⟩
    | some share =>
      obtain ⟨h1, h2, h3⟩ := ih
      refine ⟨?_, ?_, ?_⟩
      · simpa [secretsGenerated] using h1
      · simpa [splitCalls] using h2
      · simpa [directoryQueries] using h3

/-- A process that is not running stays as it is and does nothing. -/
theorem loop_of_not_running (lib : Lib) (eth : String) (s : State) (h : s.status ≠ .running)
    (ticks : List Tick) : loop lib eth s ticks = (s, []) := by
  induction ticks with
  | nil => rfl
  | cons t ts ih =>
    have hs : step lib eth s t = (s, []) := by
      unfold step
      cases hst : s.status with
      | running => exact absurd hst h
      | exited => rfl
      | panicked => rfl
    simp only [loop, hs, ih, List.append_nil]

/-- A run that ends alive was alive from the start. -/
theorem running_of_loop_running (lib : Lib) (eth : String) (s : State) (ticks : List Tick)
    (h : (loop lib eth s ticks).1.status = .running) : s.status = .running := by
  by_contra hne
  rw [loop_of_not_running lib eth s hne ticks] at h
  exact hne h

theorem GoMap.lookup_set (m : GoMap) (k : Address) (v : String) (a : Address) :
    GoMap.lookup (GoMap.set m k v) a = if k = a then some v else GoMap.lookup m a := by
  induction m with
  | nil => simp [GoMap.set, GoMap.lookup]
  | cons p rest ih =>
    obtain ⟨b, w⟩ := p
    by_cases hb : b = k
    · subst hb
      by_cases ha : b = a <;> simp [GoMap.set, GoMap.lookup, ha]
    · by_cases ha : b = a
      · subst ha
        have hk : ¬ k = b := fun h => hb h.symm
        simp [GoMap.set, GoMap.lookup, hb, hk]
      · simp [GoMap.set, GoMap.lookup, hb, ha, ih]

theorem GoMap.keys_set (m : GoMap) (k : Address) (v : String) :
    (GoMap.set m k v).map Prod.fst =
      if k ∈ m.map Prod.fst then m.map Prod.fst else m.map Prod.fst ++ [k] := by
  induction m with
  | nil => simp [GoMap.set]
  | cons p rest ih =>
    obtain ⟨b, w⟩ := p
    by_cases hb : b = k
    · subst hb
      simp [GoMap.set]
    · have hk : ¬ k = b := fun h => hb h.symm
      simp only [GoMap.set, hb, if_false, List.map_cons, ih, List.mem_cons, hk, false_or]
      split <;> simp

theorem GoMap.nodup_set (m : GoMap) (k : Address) (v : String)
    (h : (m.map Prod.fst).Nodup) : ((GoMap.set m k v).map Prod.fst).Nodup := by
  rw [GoMap.keys_set]
  split
  · exact h
  · rename_i hk
    rw [List.nodup_append]
    refine ⟨h, List.nodup_singleton k, ?_⟩
    intro a ha hb
    rw [List.mem_singleton] at hb
    subst hb
    exact hk ha

/-- The directory loop: each listed operator with an endpoint is written with
that endpoint, every other key keeps its entry. -/
theorem fetchLoop_lookup (lib : Lib) (chain : Chain) (c : Address) (ops : List Address)
    (m : GoMap) (written : List String) (a : Address) :
    GoMap.lookup (fetchLoop lib chain c ops m written).1 a =
      match (if a ∈ ops then endpointOf lib chain c a else none) with
      | some ip => some ip
      | none => GoMap.lookup m a := by
  induction ops generalizing m with
  | nil => simp [fetchLoop]
  | cons op rest ih =>
    simp only [fetchLoop]
    by_cases hop : a = op
    · subst hop
      simp only [List.mem_cons, true_or, if_true]
      unfold endpointOf
      split
      · rename_i e hcall
        rw [ih]
        split <;> simp_all [endpointOf]
      · rename_i out hcall
        split
        · rename_i ip hip
          rw [ih]
          split
          · rename_i ip2 h2
            split at h2
            · simp_all [endpointOf]
            · simp at h2
          · simp [GoMap.lookup_set]
        · rename_i e hip
          rw [ih]
          split <;> simp_all [endpointOf]
    · have hmem : (if a ∈ op :: rest then endpointOf lib chain c a else none)
          = (if a ∈ rest then endpointOf lib chain c a else none) := by
        simp [hop]
      rw [hmem]
      have hop2 : ¬ op = a := fun h => hop h.symm
      split
      · exact ih m
      · split
        · rw [ih]
          simp [GoMap.lookup_set, hop2]
        · exact ih m

theorem fetchLoop_nodup (lib : Lib) (chain : Chain) (c : Address) (ops : List Address)
    (m : GoMap) (written : List String) (h : (m.map Prod.fst).Nodup) :
    ((fetchLoop lib chain c ops m written).1.map Prod.fst).Nodup := by
  induction ops generalizing m with
  | nil => simpa [fetchLoop] using h
  | cons op rest ih =>
    simp only [fetchLoop]
    split
    · exact ih m h
    · split
      · exact ih _ (GoMap.nodup_set m op _ h)
      · exact ih m h

theorem secretsGenerated_leaderPreamble (lib : Lib) (sel : Address) (w : World) :
    secretsGenerated (leaderPreamble lib sel w) = [w.D] := rfl

theorem splitCalls_leaderPreamble (lib : Lib) (sel : Address) (w : World) :
    splitCalls (leaderPreamble lib sel w) = [(w.D, 5, 3)] := rfl

theorem directoryQueries_leaderPreamble (lib : Lib) (sel : Address) (w : World) :
    directoryQueries (leaderPreamble lib sel w) = [yourContractAddress] := rfl

theorem sends_leaderPreamble (lib : Lib) (sel : Address) (w : World) :
    sends (leaderPreamble lib sel w) = [] := rfl

theorem logLines_leaderPreamble (lib : Lib) (sel : Address) (w : World) :
    logLines (leaderPreamble lib sel w) = [] := rfl

theorem stdoutLines_leaderPreamble (lib : Lib) (sel : Address) (w : World) :
    stdoutLines (leaderPreamble lib sel w) =
      ["📢 Operator Selected: " ++ lib.Hex sel,
       "Private Key: " ++ toString w.D,
       "Shares: " ++ lib.showShares (lib.SplitSecret w.D 5 3 w.coeffs)] := rfl

/-- An undecodable log: a warning, nothing else. -/
theorem processLog_malformed (lib : Lib) (eth agg : String) (vLog : Log)
    (key : Except Err World) (err : Err)
    (hbad : lib.unpackOperatorSelected vLog.Data = .error err) :
    processLog lib eth agg vLog key =
      (⟨agg, .running⟩, [.logged ("Failed to unpack event: " ++ err)]) := by
  simp only [processLog, hbad]

/-- Another operator is selected: it is announced and recorded. -/
theorem processLog_follower (lib : Lib) (eth agg : String) (vLog : Log)
    (key : Except Err World)
    (sel : Address) (hdec : lib.unpackOperatorSelected vLog.Data = .ok sel)
    (hne : lib.Hex sel ≠ eth) :
    processLog lib eth agg vLog key =
      (⟨lib.Hex sel, .running⟩, [.stdout ("📢 Operator Selected: " ++ lib.Hex sel)]) := by
  simp only [processLog, hdec, hne, if_false]

/-- The local node is selected and no key is generated: the process panics. -/
theorem processLog_leader_noKey (lib : Lib) (eth agg : String) (vLog : Log) (keyErr : Err)
    (sel : Address) (hdec : lib.unpackOperatorSelected vLog.Data = .ok sel)
    (heq : lib.Hex sel = eth) :
    processLog lib eth agg vLog (.error keyErr) =
      (⟨agg, .panicked⟩,
        [.stdout ("📢 Operator Selected: " ++ lib.Hex sel), .newPrivateKeyFailed keyErr,
         .panic]) := by
  simp only [processLog, hdec, heq, if_true]

/-- The local node is selected and the directory query fails. -/
theorem processLog_leader_error (lib : Lib) (eth agg : String) (vLog : Log) (w : World)
    (sel : Address) (err : Err) (hdec : lib.unpackOperatorSelected vLog.Data = .ok sel)
    (heq : lib.Hex sel = eth)
    (hfetch : (FetchOperatorIPs lib w.chain yourContractAddress).value = .error err) :
    processLog lib eth agg vLog (.ok w) =
      (⟨agg, .exited⟩, leaderPreamble lib sel w ++ [.logged err]) := by
  simp only [processLog, hdec, heq, if_true, hfetch, FetchOperatorIPs_written, List.map_nil,
    List.append_nil]

/-- The local node is selected and the directory query answers. -/
theorem processLog_leader_ok (lib : Lib) (eth agg : String) (vLog : Log) (w : World)
    (sel : Address) (ips : GoMap) (hdec : lib.unpackOperatorSelected vLog.Data = .ok sel)
    (heq : lib.Hex sel = eth)
    (hfetch : (FetchOperatorIPs lib w.chain yourContractAddress).value = .ok ips) :
    processLog lib eth agg vLog (.ok w) =
      (⟨agg, (sendLoop lib eth (lib.SplitSecret w.D 5 3 w.coeffs) 0 (w.rangeOrder ips)).1⟩,
        leaderPreamble lib sel w
          ++ (sendLoop lib eth (lib.SplitSecret w.D 5 3 w.coeffs) 0 (w.rangeOrder ips)).2) := by
  simp only [processLog, hdec, heq, if_true, hfetch, FetchOperatorIPs_written, List.map_nil,
    List.append_nil]

/-- Whenever the local node is selected and a key is generated, exactly one
secret is generated, split once, and the directory is queried once, however the
iteration ends. -/
theorem processLog_leader_counts (lib : Lib) (eth agg : String) (vLog : Log) (w : World)
    (sel : Address) (hdec : lib.unpackOperatorSelected vLog.Data = .ok sel)
    (heq : lib.Hex sel = eth) :
    secretsGenerated (processLog lib eth agg vLog (.ok w)).2 = [w.D] ∧
      splitCalls (processLog lib eth agg vLog (.ok w)).2 = [(w.D, 5, 3)] ∧
      directoryQueries (processLog lib eth agg vLog (.ok w)).2 = [yourContractAddress] := by
  cases hfetch : (FetchOperatorIPs lib w.chain yourContractAddress).value with
  | error err =>
    rw [processLog_leader_error lib eth agg vLog w sel err hdec heq hfetch]
    exact ⟨rfl, rfl, rfl⟩
  | ok ips =>
    rw [processLog_leader_ok lib eth agg vLog w sel ips hdec heq hfetch]
    obtain ⟨h1, h2, h3⟩ :=
      sendLoop_no_secret lib eth (lib.SplitSecret w.D 5 3 w.coeffs) 0 (w.rangeOrder ips)
    refine ⟨?_, ?_, ?_⟩
    · rw [secretsGenerated_append, h1, secretsGenerated_leaderPreamble]; rfl
    · rw [splitCalls_append, h2, splitCalls_leaderPreamble]; rfl
    · rw [directoryQueries_append, h3, directoryQueries_leaderPreamble]; rfl

theorem keyGenerationCalls_append (a b : List Effect) :
    keyGenerationCalls (a ++ b) = keyGenerationCalls a + keyGenerationCalls b := by
  simp [keyGenerationCalls]

theorem keyGenerationCalls_sendLoop (lib : Lib) (eth : String) (shares : List Share) (i : Nat)
    (peers : List (Address × String)) :
    keyGenerationCalls (sendLoop lib eth shares i peers).2 = 0 := by
  induction peers with
  | nil => rfl
  | cons p rest ih =>
    obtain ⟨addr, ip⟩ := p
    simp only [sendLoop]
    cases shares[i]? with
    | none => rfl
    | some share => simpa [keyGenerationCalls] using ih

/-- The leader branch calls `btcec.NewPrivateKey` once, whatever it returns. -/
theorem processLog_leader_keyGeneration (lib : Lib) (eth agg : String) (vLog : Log)
    (key : Except Err World) (sel : Address)
    (hdec : lib.unpackOperatorSelected vLog.Data = .ok sel) (heq : lib.Hex sel = eth) :
    keyGenerationCalls (processLog lib eth agg vLog key).2 = 1 := by
  cases key with
  | error keyErr =>
    rw [processLog_leader_noKey lib eth agg vLog keyErr sel hdec heq]
    rfl
  | ok w =>
    cases hfetch : (FetchOperatorIPs lib w.chain yourContractAddress).value with
    | error err =>
      rw [processLog_leader_error lib eth agg vLog w sel err hdec heq hfetch]
      rfl
    | ok ips =>
      rw [processLog_leader_ok lib eth agg vLog w sel ips hdec heq hfetch,
        keyGenerationCalls_append, keyGenerationCalls_sendLoop]
      rfl

/-- Without a share at index `i` the send loop sends nothing, and it finishes
only when there is no peer. -/
theorem sendLoop_of_no_share (lib : Lib) (eth : String) (shares : List Share) (i : Nat)
    (h : shares[i]? = none) (peers : List (Address × String)) :
    sends (sendLoop lib eth shares i peers).2 = [] ∧
      ((sendLoop lib eth shares i peers).1 = .running → peers = []) := by
  cases peers with
  | nil => exact ⟨rfl, fun _ => rfl⟩
  | cons p rest =>
    obtain ⟨addr, ip⟩ := p
    simp only [sendLoop, h]
    exact ⟨rfl, fun hrun => Status.noConfusion hrun⟩

/-- The sends of the send loop, by endpoint and sender: one per peer when the
share set has an element at index `i`, none otherwise. -/
theorem sendLoop_sends (lib : Lib) (eth : String) (shares : List Share) (i : Nat)
    (peers : List (Address × String)) :
    (sends (sendLoop lib eth shares i peers).2).map (fun c => (c.1, c.2.1))
      = match shares[i]? with
        | some _ => peers.map fun p => (p.2, eth)
        | none => [] := by
  cases h : shares[i]? with
  | none =>
    rw [(sendLoop_of_no_share lib eth shares i h peers).1]
    rfl
  | some share =>
    rw [sendLoop_of_share lib eth shares i share h peers, sends_peerEffects, List.map_map]
    rfl

/-- The sends of a finished send loop, by endpoint and sender: one per peer. -/
theorem sendLoop_sends_of_running (lib : Lib) (eth : String) (shares : List Share) (i : Nat)
    (peers : List (Address × String))
    (hrun : (sendLoop lib eth shares i peers).1 = .running) :
    (sends (sendLoop lib eth shares i peers).2).map (fun c => (c.1, c.2.1))
      = peers.map fun p => (p.2, eth) := by
  rw [sendLoop_sends]
  cases h : shares[i]? with
  | none =>
    rw [(sendLoop_of_no_share lib eth shares i h peers).2 hrun]
    rfl
  | some share => rfl

theorem leaderDeliveries_cons (lib : Lib) (eth : String) (t : Tick) (ts : List Tick) :
    leaderDeliveries lib eth (t :: ts)
      = leaderDeliveries lib eth ts + if selectsLocal lib eth t then 1 else 0 := by
  simp only [leaderDeliveries, List.countP_cons]

/-- One iteration that leaves the process alive generates a secret, and calls
`SplitSecret`, exactly when it delivers a selection of the local node, and its
sends are those of the delivery. -/
theorem step_alive (lib : Lib) (eth : String) (s : State) (t : Tick)
    (hs : s.status = .running) (hafter : (step lib eth s t).1.status = .running) :
    (secretsGenerated (step lib eth s t).2).length = (if selectsLocal lib eth t then 1 else 0) ∧
      (splitCalls (step lib eth s t).2).length = (if selectsLocal lib eth t then 1 else 0) ∧
      (sends (step lib eth s t).2).map (fun c => (c.1, c.2.1)) = deliveryPeers lib eth t := by
  cases t with
  | subErr err =>
    simp only [step, hs] at hafter
    exact Status.noConfusion hafter
  | logNoKey vLog keyErr =>
    simp only [step, hs] at hafter ⊢
    cases hdec : lib.unpackOperatorSelected vLog.Data with
    | error err =>
      rw [processLog_malformed lib eth s.aggregator vLog _ err hdec]
      simp only [selectsLocal, Tick.delivered, hdec]
      exact ⟨rfl, rfl, rfl⟩
    | ok sel =>
      by_cases heq : lib.Hex sel = eth
      · rw [processLog_leader_noKey lib eth s.aggregator vLog keyErr sel hdec heq] at hafter
        exact Status.noConfusion hafter
      · rw [processLog_follower lib eth s.aggregator vLog _ sel hdec heq]
        simp only [selectsLocal, Tick.delivered, hdec, heq, decide_False]
        exact ⟨rfl, rfl, rfl⟩
  | log vLog w =>
    simp only [step, hs] at hafter ⊢
    cases hdec : lib.unpackOperatorSelected vLog.Data with
    | error err =>
      rw [processLog_malformed lib eth s.aggregator vLog _ err hdec]
      simp only [selectsLocal, Tick.delivered, deliveryPeers, hdec]
      exact ⟨rfl, rfl, rfl⟩
    | ok sel =>
      by_cases heq : lib.Hex sel = eth
      · obtain ⟨h1, h2, _⟩ := processLog_leader_counts lib eth s.aggregator vLog w sel hdec heq
        have hsel : selectsLocal lib eth (.log vLog w) = true := by
          simp only [selectsLocal, Tick.delivered, hdec, heq, decide_True]
        rw [h1, h2, hsel]
        refine ⟨rfl, rfl, ?_⟩
        simp only [deliveryPeers, hdec, heq, if_true]
        cases hfetch : (FetchOperatorIPs lib w.chain yourContractAddress).value with
        | error err =>
          rw [processLog_leader_error lib eth s.aggregator vLog w sel err hdec heq hfetch]
            at hafter
          exact Status.noConfusion hafter
        | ok ips =>
          rw [processLog_leader_ok lib eth s.aggregator vLog w sel ips hdec heq hfetch]
            at hafter ⊢
          rw [sends_append, sends_leaderPreamble, List.nil_append]
          exact sendLoop_sends_of_running lib eth _ 0 (w.rangeOrder ips) hafter
      · rw [processLog_follower lib eth s.aggregator vLog _ sel hdec heq]
        simp only [selectsLocal, Tick.delivered, deliveryPeers, hdec, heq, decide_False,
          if_false]
        exact ⟨rfl, rfl, rfl⟩

/-- A running loop hands the delivered log to `processLog`. -/
theorem step_of_delivered (lib : Lib) (eth agg : String) (t : Tick) (vLog : Log)
    (h : t.delivered = some vLog) :
    ∃ key, step lib eth ⟨agg, .running⟩ t = processLog lib eth agg vLog key := by
  cases t with
  | subErr err => exact Option.noConfusion h
  | log l w =>
    have hl : l = vLog := Option.some.inj h
    subst hl
    exact ⟨.ok w, rfl⟩
  | logNoKey l keyErr =>
    have hl : l = vLog := Option.some.inj h
    subst hl
    exact ⟨.error keyErr, rfl⟩

/-! ## The claims -/

/-- Claim C1, evaluated on the code. The local node is selected and the directory
returns two peers. The share set holds five different values, and both calls
of `sendPrivateKey` carry the first of them: the peer at position 1 is sent
the share at index 0 (value 16), not the share at index 1 (value 27). -/
theorem every_peer_is_sent_the_first_share :
    (sampleLib.SplitSecret 11 5 3 [2, 3]).map Share.value = [16, 27, 44, 67, 96] ∧
      sends (step sampleLib sampleEth ⟨"", .running⟩
          (.log localLog (sampleWorld 11 [2, 3] twoPeers))).2
        = [("10.0.0.1", "0xa", "16"), ("10.0.0.2", "0xa", "16")] := by
  decide

/-- Claim C2, refuted as stated. The directory returns two peers, fewer than the
threshold 3; the loop still calls `sendPrivateKey` twice, reports nothing
through the log and keeps running. -/
theorem below_threshold_still_sends :
    (FetchOperatorIPs sampleLib (sampleChain twoPeers) yourContractAddress).value.toOption
        = some [(1, "10.0.0.1"), (2, "10.0.0.2")] ∧
      (sends (step sampleLib sampleEth ⟨"", .running⟩
          (.log localLog (sampleWorld 11 [2, 3] twoPeers))).2).length = 2 ∧
      logLines (step sampleLib sampleEth ⟨"", .running⟩
          (.log localLog (sampleWorld 11 [2, 3] twoPeers))).2 = [] ∧
      (step sampleLib sampleEth ⟨"", .running⟩
          (.log localLog (sampleWorld 11 [2, 3] twoPeers))).1.status = .running := by
  decide

/-- Claim C2, as amended. When the local node is selected, the directory query
returns a peer map of any size and `SplitSecret` returned at least one share,
nothing is aborted or reported: `sendPrivateKey` is called once per peer of the
map, in the order of the iteration, with that peer's endpoint and the local
identity as sender, and the loop keeps running. -/
theorem sends_once_per_returned_peer (lib : Lib) (eth agg : String) (vLog : Log) (w : World)
    (sel : Address) (ips : GoMap) (share : Share)
    (hdec : lib.unpackOperatorSelected vLog.Data = .ok sel)
    (heq : lib.Hex sel = eth)
    (hfetch : (FetchOperatorIPs lib w.chain yourContractAddress).value = .ok ips)
    (hshare : (lib.SplitSecret w.D 5 3 w.coeffs)[0]? = some share)
    (hrange : (w.rangeOrder ips).Perm ips) :
    (sends (step lib eth ⟨agg, .running⟩ (.log vLog w)).2).map (fun c => (c.1, c.2.1))
        = (w.rangeOrder ips).map (fun p => (p.2, eth)) ∧
      (sends (step lib eth ⟨agg, .running⟩ (.log vLog w)).2).length = ips.length ∧
      logLines (step lib eth ⟨agg, .running⟩ (.log vLog w)).2 = [] ∧
      (step lib eth ⟨agg, .running⟩ (.log vLog w)).1 = ⟨agg, .running⟩ := by
  have hstep : step lib eth ⟨agg, .running⟩ (.log vLog w) = processLog lib eth agg vLog (.ok w) := rfl
  rw [hstep, processLog_leader_ok lib eth agg vLog w sel ips hdec heq hfetch,
    sendLoop_of_share lib eth _ 0 share hshare]
  refine ⟨?_, ?_, ?_, rfl⟩
  · rw [sends_append, sends_leaderPreamble, List.nil_append, sends_peerEffects, List.map_map]
    rfl
  · rw [sends_append, sends_leaderPreamble, List.nil_append, sends_peerEffects, List.length_map]
    exact hrange.length_eq
  · rw [logLines_append, logLines_leaderPreamble, logLines_peerEffects]
    rfl

/-- Witness of `sends_once_per_returned_peer`: the local node is selected and
the directory returns two peers. -/
theorem sends_once_per_returned_peer_witness :
    sampleLib.unpackOperatorSelected localLog.Data = .ok localAddress ∧
      sampleLib.Hex localAddress = sampleEth ∧
      (FetchOperatorIPs sampleLib (sampleWorld 11 [2, 3] twoPeers).chain
          yourContractAddress).value = .ok [(1, "10.0.0.1"), (2, "10.0.0.2")] ∧
      (sampleLib.SplitSecret 11 5 3 [2, 3])[0]? = some ⟨1, 16⟩ ∧
      ((sampleWorld 11 [2, 3] twoPeers).rangeOrder [(1, "10.0.0.1"), (2, "10.0.0.2")]).Perm
        [(1, "10.0.0.1"), (2, "10.0.0.2")] ∧
      (sends (step sampleLib sampleEth ⟨"", .running⟩
          (.log localLog (sampleWorld 11 [2, 3] twoPeers))).2).length
        = [((1 : Address), "10.0.0.1"), (2, "10.0.0.2")].length :=
  ⟨rfl, rfl, rfl, rfl, List.Perm.refl _,
    (sends_once_per_returned_peer sampleLib sampleEth "" localLog
      (sampleWorld 11 [2, 3] twoPeers) localAddress [(1, "10.0.0.1"), (2, "10.0.0.2")]
      ⟨1, 16⟩ rfl rfl rfl rfl (List.Perm.refl _)).2.1⟩

/-- Claim C3. For a well-formed event in a running loop, a distribution is
triggered (the leader branch starts, calling `btcec.NewPrivateKey`) exactly
when the selected identity is the local one. When it differs, nothing but the
announcement happens: no secret, no `SplitSecret`, no directory query, no
send, and `aggregator` becomes the selected identity. When it is the local
one and the key is generated, that secret is generated, `SplitSecret` and the
directory are called once, and `sendPrivateKey` is called once per peer of the
map the directory returns (none when the query fails or the share set is
empty); when key generation fails, the process panics. For two events of
which only the second selects the local node, the first triggers nothing and
records its operator, and the run holds exactly one distribution, the one of
the second event. -/
theorem distribution_iff_local_selected (lib : Lib) (eth agg : String) :
    (∀ (t : Tick) (vLog : Log) (sel : Address),
      t.delivered = some vLog → lib.unpackOperatorSelected vLog.Data = .ok sel →
        (keyGenerationCalls (step lib eth ⟨agg, .running⟩ t).2 = 1 ↔ lib.Hex sel = eth) ∧
        (lib.Hex sel ≠ eth →
          step lib eth ⟨agg, .running⟩ t
              = (⟨lib.Hex sel, .running⟩, [.stdout ("📢 Operator Selected: " ++ lib.Hex sel)]) ∧
            keyGenerationCalls (step lib eth ⟨agg, .running⟩ t).2 = 0 ∧
            secretsGenerated (step lib eth ⟨agg, .running⟩ t).2 = [] ∧
            splitCalls (step lib eth ⟨agg, .running⟩ t).2 = [] ∧
            directoryQueries (step lib eth ⟨agg, .running⟩ t).2 = [] ∧
            sends (step lib eth ⟨agg, .running⟩ t).2 = [])) ∧
    (∀ (vLog : Log) (w : World) (sel : Address),
      lib.unpackOperatorSelected vLog.Data = .ok sel → lib.Hex sel = eth →
        secretsGenerated (step lib eth ⟨agg, .running⟩ (.log vLog w)).2 = [w.D] ∧
        splitCalls (step lib eth ⟨agg, .running⟩ (.log vLog w)).2 = [(w.D, 5, 3)] ∧
        directoryQueries (step lib eth ⟨agg, .running⟩ (.log vLog w)).2
          = [yourContractAddress] ∧
        (sends (step lib eth ⟨agg, .running⟩ (.log vLog w)).2).map (fun c => (c.1, c.2.1))
          = (match (FetchOperatorIPs lib w.chain yourContractAddress).value with
            | .ok ips =>
              (match (lib.SplitSecret w.D 5 3 w.coeffs)[0]? with
              | some _ => (w.rangeOrder ips).map fun p => (p.2, eth)
              | none => [])
            | .error _ => []) ∧
        (step lib eth ⟨agg, .running⟩ (.log vLog w)).1.aggregator = agg) ∧
    (∀ (vLog : Log) (keyErr : Err) (sel : Address),
      lib.unpackOperatorSelected vLog.Data = .ok sel → lib.Hex sel = eth →
        step lib eth ⟨agg, .running⟩ (.logNoKey vLog keyErr)
          = (⟨agg, .panicked⟩,
              [.stdout ("📢 Operator Selected: " ++ lib.Hex sel), .newPrivateKeyFailed keyErr,
               .panic])) ∧
    (∀ (t1 t2 : Tick) (E1 E2 : Log) (sel1 sel2 : Address),
      t1.delivered = some E1 → t2.delivered = some E2 →
      lib.unpackOperatorSelected E1.Data = .ok sel1 →
      lib.unpackOperatorSelected E2.Data = .ok sel2 →
      lib.Hex sel1 ≠ eth → lib.Hex sel2 = eth →
        (step lib eth ⟨agg, .running⟩ t1).1 = ⟨lib.Hex sel1, .running⟩ ∧
        keyGenerationCalls (step lib eth ⟨agg, .running⟩ t1).2 = 0 ∧
        secretsGenerated (step lib eth ⟨agg, .running⟩ t1).2 = [] ∧
        sends (step lib eth ⟨agg, .running⟩ t1).2 = [] ∧
        keyGenerationCalls (loop lib eth ⟨agg, .running⟩ [t1, t2]).2 = 1 ∧
        (loop lib eth ⟨agg, .running⟩ [t1, t2]).2
          = .stdout ("📢 Operator Selected: " ++ lib.Hex sel1)
              :: (step lib eth ⟨lib.Hex sel1, .running⟩ t2).2) ∧
    (∀ (E1 E2 : Log) (w1 w2 : World) (sel1 sel2 : Address),
      lib.unpackOperatorSelected E1.Data = .ok sel1 →
      lib.unpackOperatorSelected E2.Data = .ok sel2 →
      lib.Hex sel1 ≠ eth → lib.Hex sel2 = eth →
        secretsGenerated (loop lib eth ⟨agg, .running⟩ [.log E1 w1, .log E2 w2]).2 = [w2.D] ∧
        splitCalls (loop lib eth ⟨agg, .running⟩ [.log E1 w1, .log E2 w2]).2
          = [(w2.D, 5, 3)] ∧
        directoryQueries (loop lib eth ⟨agg, .running⟩ [.log E1 w1, .log E2 w2]).2
          = [yourContractAddress] ∧
        (sends (loop lib eth ⟨agg, .running⟩ [.log E1 w1, .log E2 w2]).2).map
            (fun c => (c.1, c.2.1))
          = (match (FetchOperatorIPs lib w2.chain yourContractAddress).value with
            | .ok ips =>
              (match (lib.SplitSecret w2.D 5 3 w2.coeffs)[0]? with
              | some _ => (w2.rangeOrder ips).map fun p => (p.2, eth)
              | none => [])
            | .error _ => []) ∧
        (loop lib eth ⟨agg, .running⟩ [.log E1 w1, .log E2 w2]).1.aggregator
          = lib.Hex sel1) := by
  have hlog : ∀ (a : String) (l : Log) (x : World),
      step lib eth ⟨a, .running⟩ (.log l x) = processLog lib eth a l (.ok x) :=
    fun _ _ _ => rfl
  have hleader : ∀ (a : String) (vLog : Log) (w : World) (sel : Address),
      lib.unpackOperatorSelected vLog.Data = .ok sel → lib.Hex sel = eth →
        secretsGenerated (processLog lib eth a vLog (.ok w)).2 = [w.D] ∧
        splitCalls (processLog lib eth a vLog (.ok w)).2 = [(w.D, 5, 3)] ∧
        directoryQueries (processLog lib eth a vLog (.ok w)).2 = [yourContractAddress] ∧
        (sends (processLog lib eth a vLog (.ok w)).2).map (fun c => (c.1, c.2.1))
          = (match (FetchOperatorIPs lib w.chain yourContractAddress).value with
            | .ok ips =>
              (match (lib.SplitSecret w.D 5 3 w.coeffs)[0]? with
              | some _ => (w.rangeOrder ips).map fun p => (p.2, eth)
              | none => [])
            | .error _ => []) ∧
        (processLog lib eth a vLog (.ok w)).1.aggregator = a := by
    intro a vLog w sel hdec heq
    obtain ⟨c1, c2, c3⟩ := processLog_leader_counts lib eth a vLog w sel hdec heq
    refine ⟨c1, c2, c3, ?_⟩
    cases hfetch : (FetchOperatorIPs lib w.chain yourContractAddress).value with
    | error err =>
      rw [processLog_leader_error lib eth a vLog w sel err hdec heq hfetch]
      exact ⟨rfl, rfl⟩
    | ok ips =>
      rw [processLog_leader_ok lib eth a vLog w sel ips hdec heq hfetch]
      refine ⟨?_, rfl⟩
      rw [sends_append, sends_leaderPreamble, List.nil_append]
      exact sendLoop_sends lib eth _ 0 (w.rangeOrder ips)
  refine ⟨?_, ?_, ?_, ?_, ?_⟩
  · intro t vLog sel hdel hdec
    obtain ⟨key, hkey⟩ := step_of_delivered lib eth agg t vLog hdel
    rw [hkey]
    by_cases heq : lib.Hex sel = eth
    · refine ⟨⟨fun _ => heq, fun _ =>
        processLog_leader_keyGeneration lib eth agg vLog key sel hdec heq⟩, ?_⟩
      intro hne
      exact absurd heq hne
    · rw [processLog_follower lib eth agg vLog key sel hdec heq]
      refine ⟨⟨fun h => ?_, fun h => absurd h heq⟩, fun _ => ⟨rfl, rfl, rfl, rfl, rfl, rfl⟩⟩
      exact absurd (show (0 : Nat) = 1 from h) (by decide)
  · intro vLog w sel hdec heq
    rw [hlog]
    exact hleader agg vLog w sel hdec heq
  · intro vLog keyErr sel hdec heq
    exact processLog_leader_noKey lib eth agg vLog keyErr sel hdec heq
  · intro t1 t2 E1 E2 sel1 sel2 hd1 hd2 h1 h2 hne1 heq2
    obtain ⟨k1, hk1⟩ := step_of_delivered lib eth agg t1 E1 hd1
    obtain ⟨k2, hk2⟩ := step_of_delivered lib eth (lib.Hex sel1) t2 E2 hd2
    have hE1 := processLog_follower lib eth agg E1 k1 sel1 h1 hne1
    have hgen := processLog_leader_keyGeneration lib eth (lib.Hex sel1) E2 k2 sel2 h2 heq2
    rw [hk1, hE1]
    refine ⟨rfl, rfl, rfl, rfl, ?_, ?_⟩
    · simp only [loop, hk1, hE1, hk2, List.append_nil, keyGenerationCalls_append, hgen]
      rfl
    · simp only [loop, hk1, hE1, List.append_nil, List.singleton_append]
  · intro E1 E2 w1 w2 sel1 sel2 h1 h2 hne1 heq2
    have hE1 := processLog_follower lib eth agg E1 (.ok w1) sel1 h1 hne1
    obtain ⟨c1, c2, c3, c4, c5⟩ := hleader (lib.Hex sel1) E2 w2 sel2 h2 heq2
    simp only [loop, hlog, hE1, List.append_nil, secretsGenerated_append, splitCalls_append,
      directoryQueries_append, sends_append, c1, c2, c3, c5]
    refine ⟨rfl, rfl, rfl, ?_, trivial⟩
    rw [← c4]
    rfl

/-- Witness of `distribution_iff_local_selected`: operator 7 is selected, then
the local node; the one secret generated is the one of the second event, and
its shares go to the two peers. -/
theorem distribution_iff_local_selected_witness :
    (Tick.log localLog (sampleWorld 22 [4, 5] twoPeers)).delivered = some localLog ∧
      (Tick.log otherLog (sampleWorld 11 [2, 3] twoPeers)).delivered = some otherLog ∧
      sampleLib.unpackOperatorSelected localLog.Data = .ok localAddress ∧
      sampleLib.unpackOperatorSelected otherLog.Data = .ok 7 ∧
      sampleLib.Hex 7 ≠ sampleEth ∧
      sampleLib.Hex localAddress = sampleEth ∧
      (keyGenerationCalls (step sampleLib sampleEth ⟨"", .running⟩
          (.log localLog (sampleWorld 22 [4, 5] twoPeers))).2 = 1
        ↔ sampleLib.Hex localAddress = sampleEth) ∧
      sends (step sampleLib sampleEth ⟨"", .running⟩
          (.log otherLog (sampleWorld 11 [2, 3] twoPeers))).2 = [] ∧
      secretsGenerated (step sampleLib sampleEth ⟨"", .running⟩
          (.log localLog (sampleWorld 22 [4, 5] twoPeers))).2 = [22] ∧
      (sends (step sampleLib sampleEth ⟨"", .running⟩
          (.log localLog (sampleWorld 22 [4, 5] twoPeers))).2).map (fun c => (c.1, c.2.1))
        = [("10.0.0.1", "0xa"), ("10.0.0.2", "0xa")] ∧
      step sampleLib sampleEth ⟨"", .running⟩ (.logNoKey localLog "EOF")
        = (⟨"", .panicked⟩,
            [.stdout ("📢 Operator Selected: " ++ sampleLib.Hex localAddress),
             .newPrivateKeyFailed "EOF", .panic]) ∧
      keyGenerationCalls (loop sampleLib sampleEth ⟨"", .running⟩
          [.log otherLog (sampleWorld 11 [2, 3] twoPeers),
           .log localLog (sampleWorld 22 [4, 5] twoPeers)]).2 = 1 ∧
      secretsGenerated (loop sampleLib sampleEth ⟨"", .running⟩
          [.log otherLog (sampleWorld 11 [2, 3] twoPeers),
           .log localLog (sampleWorld 22 [4, 5] twoPeers)]).2 = [22] :=
  ⟨rfl, rfl, rfl, rfl, by decide, rfl,
    ((distribution_iff_local_selected sampleLib sampleEth "").1
      (.log localLog (sampleWorld 22 [4, 5] twoPeers)) localLog localAddress rfl rfl).1,
    (((distribution_iff_local_selected sampleLib sampleEth "").1
      (.log otherLog (sampleWorld 11 [2, 3] twoPeers)) otherLog 7 rfl rfl).2
        (by decide)).2.2.2.2.2,
    ((distribution_iff_local_selected sampleLib sampleEth "").2.1
      localLog (sampleWorld 22 [4, 5] twoPeers) localAddress rfl rfl).1,
    ((distribution_iff_local_selected sampleLib sampleEth "").2.1
      localLog (sampleWorld 22 [4, 5] twoPeers) localAddress rfl rfl).2.2.2.1,
    (distribution_iff_local_selected sampleLib sampleEth "").2.2.1
      localLog "EOF" localAddress rfl rfl,
    ((distribution_iff_local_selected sampleLib sampleEth "").2.2.2.1
      (.log otherLog (sampleWorld 11 [2, 3] twoPeers))
      (.log localLog (sampleWorld 22 [4, 5] twoPeers)) otherLog localLog 7 localAddress
      rfl rfl rfl rfl (by decide) rfl).2.2.2.2.1,
    ((distribution_iff_local_selected sampleLib sampleEth "").2.2.2.2
      otherLog localLog (sampleWorld 11 [2, 3] twoPeers) (sampleWorld 22 [4, 5] twoPeers)
      7 localAddress rfl rfl (by decide) rfl).1⟩

/-- Claim C4, refuted as stated. The same log, selecting the local node, is
delivered twice: the loop generates a secret at each delivery (11, then 22),
calls `SplitSecret` twice and sends shares to the two peers twice. -/
theorem duplicate_delivery_generates_second_secret :
    secretsGenerated (loop sampleLib sampleEth ⟨"", .running⟩
        [.log localLog (sampleWorld 11 [2, 3] twoPeers),
         .log localLog (sampleWorld 22 [2, 3] twoPeers)]).2 = [11, 22] ∧
      splitCalls (loop sampleLib sampleEth ⟨"", .running⟩
        [.log localLog (sampleWorld 11 [2, 3] twoPeers),
         .log localLog (sampleWorld 22 [2, 3] twoPeers)]).2 = [(11, 5, 3), (22, 5, 3)] ∧
      (sends (loop sampleLib sampleEth ⟨"", .running⟩
        [.log localLog (sampleWorld 11 [2, 3] twoPeers),
         .log localLog (sampleWorld 22 [2, 3] twoPeers)]).2).length = 4 := by
  decide

/-- Claim C4, as amended. In a run that the process survives, the number of
secrets generated, and of calls of `SplitSecret`, is the number of deliveries
of a selection of the local node, and the calls of `sendPrivateKey` are, for
each such delivery in turn, one per peer of the map the directory returned
for it: every delivery counts, repeated ones too. -/
theorem secrets_count_deliveries (lib : Lib) (eth : String) (s : State) (ticks : List Tick)
    (halive : (loop lib eth s ticks).1.status = .running) :
    (secretsGenerated (loop lib eth s ticks).2).length = leaderDeliveries lib eth ticks ∧
      (splitCalls (loop lib eth s ticks).2).length = leaderDeliveries lib eth ticks ∧
      (sends (loop lib eth s ticks).2).map (fun c => (c.1, c.2.1))
        = ticks.flatMap (deliveryPeers lib eth) := by
  induction ticks generalizing s with
  | nil => exact ⟨rfl, rfl, rfl⟩
  | cons t ts ih =>
    have hs : s.status = .running := running_of_loop_running lib eth s (t :: ts) halive
    have hrest : (loop lib eth (step lib eth s t).1 ts).1.status = .running := halive
    have hafter : (step lib eth s t).1.status = .running :=
      running_of_loop_running lib eth (step lib eth s t).1 ts hrest
    obtain ⟨r1, r2, r3⟩ := ih (step lib eth s t).1 hrest
    obtain ⟨c1, c2, c3⟩ := step_alive lib eth s t hs hafter
    rw [leaderDeliveries_cons]
    simp only [loop, secretsGenerated_append, splitCalls_append, sends_append,
      List.length_append, List.map_append, List.flatMap_cons, r3, c3]
    refine ⟨?_, ?_, trivial⟩ <;> omega

/-- Witness of `secrets_count_deliveries`: the same selection of the local node
delivered twice, two secrets and twice the sends to the two peers. -/
theorem secrets_count_deliveries_witness :
    (loop sampleLib sampleEth ⟨"", .running⟩
        [.log localLog (sampleWorld 11 [2, 3] twoPeers),
         .log localLog (sampleWorld 22 [2, 3] twoPeers)]).1.status = .running ∧
      (secretsGenerated (loop sampleLib sampleEth ⟨"", .running⟩
        [.log localLog (sampleWorld 11 [2, 3] twoPeers),
         .log localLog (sampleWorld 22 [2, 3] twoPeers)]).2).length
        = leaderDeliveries sampleLib sampleEth
            [.log localLog (sampleWorld 11 [2, 3] twoPeers),
             .log localLog (sampleWorld 22 [2, 3] twoPeers)] ∧
      (sends (loop sampleLib sampleEth ⟨"", .running⟩
        [.log localLog (sampleWorld 11 [2, 3] twoPeers),
         .log localLog (sampleWorld 22 [2, 3] twoPeers)]).2).map (fun c => (c.1, c.2.1))
        = [("10.0.0.1", "0xa"), ("10.0.0.2", "0xa"), ("10.0.0.1", "0xa"),
           ("10.0.0.2", "0xa")] :=
  ⟨by decide,
    (secrets_count_deliveries sampleLib sampleEth ⟨"", .running⟩
      [.log localLog (sampleWorld 11 [2, 3] twoPeers),
       .log localLog (sampleWorld 22 [2, 3] twoPeers)] (by decide)).1,
    (secrets_count_deliveries sampleLib sampleEth ⟨"", .running⟩
      [.log localLog (sampleWorld 11 [2, 3] twoPeers),
       .log localLog (sampleWorld 22 [2, 3] twoPeers)] (by decide)).2.2⟩

/-- Claim C5, refuted as stated. A subscription error is followed by a
well-formed selection event: the process has exited at the error, the event
is not processed and `aggregator` keeps its old value. -/
theorem subscription_error_stops_the_monitor :
    loop sampleLib sampleEth ⟨"", .running⟩
        [.subErr "EOF", .log otherLog (sampleWorld 11 [2, 3] twoPeers)]
      = (⟨"", .exited⟩, [.logged "Subscription error:EOF"]) ∧
    loop sampleLib sampleEth ⟨"", .running⟩ [.log otherLog (sampleWorld 11 [2, 3] twoPeers)]
      = (⟨"0x7", .running⟩, [.stdout "📢 Operator Selected: 0x7"]) := by
  decide

/-- Claim C5, as amended. When the subscription reports an error in a running
loop, the error is logged and the process exits (`log.Fatal`): whatever
arrives afterwards is not processed and the state no longer changes. -/
theorem subscription_error_is_terminal (lib : Lib) (eth agg : String) (err : Err)
    (later : List Tick) :
    loop lib eth ⟨agg, .running⟩ (.subErr err :: later)
      = (⟨agg, .exited⟩, [.logged ("Subscription error:" ++ err)]) := by
  have hstep : step lib eth ⟨agg, .running⟩ (.subErr err)
      = (⟨agg, .exited⟩, [.logged ("Subscription error:" ++ err)]) := rfl
  have hdead : (⟨agg, .exited⟩ : State).status ≠ .running := fun h => Status.noConfusion h
  simp only [loop, hstep, loop_of_not_running lib eth ⟨agg, .exited⟩ hdead later,
    List.append_nil]

/-- Claim C6. A log whose data does not decode is dropped: the iteration leaves
the state (so `aggregator`) as it was, writes one warning, generates no secret
and sends nothing, the process stays alive, and the later events are
processed exactly as without it; the same holds at a time when no key could
be generated. -/
theorem malformed_log_is_dropped (lib : Lib) (eth : String) (s : State) (vLog : Log)
    (w : World) (err : Err) (later : List Tick)
    (halive : s.status = .running)
    (hbad : lib.unpackOperatorSelected vLog.Data = .error err) :
    step lib eth s (.log vLog w) = (s, [.logged ("Failed to unpack event: " ++ err)]) ∧
      (step lib eth s (.log vLog w)).1.status = .running ∧
      secretsGenerated (step lib eth s (.log vLog w)).2 = [] ∧
      sends (step lib eth s (.log vLog w)).2 = [] ∧
      loop lib eth s (.log vLog w :: later)
        = ((loop lib eth s later).1,
            .logged ("Failed to unpack event: " ++ err) :: (loop lib eth s later).2) ∧
      (∀ keyErr : Err,
        step lib eth s (.logNoKey vLog keyErr)
            = (s, [.logged ("Failed to unpack event: " ++ err)]) ∧
          loop lib eth s (.logNoKey vLog keyErr :: later)
            = ((loop lib eth s later).1,
                .logged ("Failed to unpack event: " ++ err) :: (loop lib eth s later).2)) := by
  have hproc : ∀ key : Except Err World, processLog lib eth s.aggregator vLog key
      = (s, [.logged ("Failed to unpack event: " ++ err)]) := by
    intro key
    obtain ⟨agg, st⟩ := s
    simp only at halive
    subst halive
    exact processLog_malformed lib eth agg vLog key err hbad
  have hstep : step lib eth s (.log vLog w)
      = (s, [.logged ("Failed to unpack event: " ++ err)]) := by
    simp only [step, halive]
    exact hproc (.ok w)
  have hstepNoKey : ∀ keyErr : Err, step lib eth s (.logNoKey vLog keyErr)
      = (s, [.logged ("Failed to unpack event: " ++ err)]) := by
    intro keyErr
    simp only [step, halive]
    exact hproc (.error keyErr)
  refine ⟨hstep, ?_, ?_, ?_, ?_, ?_⟩
  · rw [hstep]; exact halive
  · rw [hstep]; rfl
  · rw [hstep]; rfl
  · simp only [loop, hstep, List.singleton_append]
  · intro keyErr
    refine ⟨hstepNoKey keyErr, ?_⟩
    simp only [loop, hstepNoKey keyErr, List.singleton_append]

/-- Witness of `malformed_log_is_dropped`: a three-byte log, then the selection
of operator 7. -/
theorem malformed_log_is_dropped_witness :
    (⟨"0x5", .running⟩ : State).status = .running ∧
      sampleLib.unpackOperatorSelected shortLog.Data
        = .error "abi: cannot unmarshal OperatorSelected" ∧
      loop sampleLib sampleEth ⟨"0x5", .running⟩
          [.log shortLog (sampleWorld 11 [2, 3] twoPeers),
           .log otherLog (sampleWorld 11 [2, 3] twoPeers)]
        = ((loop sampleLib sampleEth ⟨"0x5", .running⟩
              [.log otherLog (sampleWorld 11 [2, 3] twoPeers)]).1,
            .logged ("Failed to unpack event: " ++ "abi: cannot unmarshal OperatorSelected")
              :: (loop sampleLib sampleEth ⟨"0x5", .running⟩
                    [.log otherLog (sampleWorld 11 [2, 3] twoPeers)]).2) :=
  ⟨rfl, rfl,
    (malformed_log_is_dropped sampleLib sampleEth ⟨"0x5", .running⟩ shortLog
      (sampleWorld 11 [2, 3] twoPeers) "abi: cannot unmarshal OperatorSelected"
      [.log otherLog (sampleWorld 11 [2, 3] twoPeers)] rfl rfl).2.2.2.2.1⟩

/-- Claim C7, refuted as stated. The local node is selected while the node of
the directory cannot be reached, then operator 7 is selected: the process
exits in the first iteration and the second event is not processed. -/
theorem directory_error_stops_the_monitor :
    (FetchOperatorIPs sampleLib downChain yourContractAddress).value.toOption = none ∧
      (loop sampleLib sampleEth ⟨"", .running⟩
          [.log localLog (downWorld 11 [2, 3]),
           .log otherLog (sampleWorld 11 [2, 3] twoPeers)]).1 = ⟨"", .exited⟩ ∧
      logLines (loop sampleLib sampleEth ⟨"", .running⟩
          [.log localLog (downWorld 11 [2, 3]),
           .log otherLog (sampleWorld 11 [2, 3] twoPeers)]).2
        = ["dial tcp: connection refused"] ∧
      (loop sampleLib sampleEth ⟨"", .running⟩
          [.log otherLog (sampleWorld 11 [2, 3] twoPeers)]).1 = ⟨"0x7", .running⟩ := by
  decide

/-- Claim C7, as amended. When the local node is selected and the directory query
returns an error, no share is sent, the error is logged and the process exits
(`log.Fatal`): no later event is processed. -/
theorem directory_error_is_terminal (lib : Lib) (eth agg : String) (vLog : Log) (w : World)
    (sel : Address) (err : Err) (later : List Tick)
    (hdec : lib.unpackOperatorSelected vLog.Data = .ok sel)
    (heq : lib.Hex sel = eth)
    (hfetch : (FetchOperatorIPs lib w.chain yourContractAddress).value = .error err) :
    loop lib eth ⟨agg, .running⟩ (.log vLog w :: later)
        = (⟨agg, .exited⟩, leaderPreamble lib sel w ++ [.logged err]) ∧
      sends (loop lib eth ⟨agg, .running⟩ (.log vLog w :: later)).2 = [] ∧
      logLines (loop lib eth ⟨agg, .running⟩ (.log vLog w :: later)).2 = [err] := by
  have hstep : step lib eth ⟨agg, .running⟩ (.log vLog w)
      = (⟨agg, .exited⟩, leaderPreamble lib sel w ++ [.logged err]) :=
    processLog_leader_error lib eth agg vLog w sel err hdec heq hfetch
  have hdead : (⟨agg, .exited⟩ : State).status ≠ .running := fun h => Status.noConfusion h
  have hloop : loop lib eth ⟨agg, .running⟩ (.log vLog w :: later)
      = (⟨agg, .exited⟩, leaderPreamble lib sel w ++ [.logged err]) := by
    simp only [loop, hstep, loop_of_not_running lib eth ⟨agg, .exited⟩ hdead later,
      List.append_nil]
  refine ⟨hloop, ?_, ?_⟩
  · rw [hloop]; rfl
  · rw [hloop]; rfl

/-- Witness of `directory_error_is_terminal`: the node of the directory cannot
be reached. -/
theorem directory_error_is_terminal_witness :
    sampleLib.unpackOperatorSelected localLog.Data = .ok localAddress ∧
      sampleLib.Hex localAddress = sampleEth ∧
      (FetchOperatorIPs sampleLib (downWorld 11 [2, 3]).chain yourContractAddress).value
        = .error "dial tcp: connection refused" ∧
      sends (loop sampleLib sampleEth ⟨"", .running⟩
          (.log localLog (downWorld 11 [2, 3])
            :: [.log otherLog (sampleWorld 11 [2, 3] twoPeers)])).2 = [] :=
  ⟨rfl, rfl, rfl,
    (directory_error_is_terminal sampleLib sampleEth "" localLog (downWorld 11 [2, 3])
      localAddress "dial tcp: connection refused"
      [.log otherLog (sampleWorld 11 [2, 3] twoPeers)] rfl rfl rfl).2.1⟩

/-- Claim C8, refuted as stated. The local node is selected: the secret scalar 11
is written to standard output, and a run that differs only in the generated
private key (12) writes a different output. -/
theorem secret_is_written_to_stdout :
    "Private Key: 11" ∈ stdoutLines (step sampleLib sampleEth ⟨"", .running⟩
        (.log localLog (sampleWorld 11 [2, 3] twoPeers))).2 ∧
      stdoutLines (step sampleLib sampleEth ⟨"", .running⟩
          (.log localLog (sampleWorld 11 [2, 3] twoPeers))).2
        ≠ stdoutLines (step sampleLib sampleEth ⟨"", .running⟩
          (.log localLog (sampleWorld 12 [2, 3] twoPeers))).2 := by
  decide

/-- Claim C8, as amended. When the local node is selected (and `SplitSecret`
returned at least one share), standard output receives the announcement of the
selected operator, the line `Private Key:` with the secret scalar in decimal,
the line `Shares:` with the share set, and one line per peer of the directory;
the announcement, the per-peer lines and the log messages are the same for
every secret and every share value, and `aggregator` is not written. -/
theorem leader_output_lines (lib : Lib) (eth agg : String) (vLog : Log) (w : World)
    (sel : Address) (share : Share)
    (hdec : lib.unpackOperatorSelected vLog.Data = .ok sel)
    (heq : lib.Hex sel = eth)
    (hshare : (lib.SplitSecret w.D 5 3 w.coeffs)[0]? = some share) :
    stdoutLines (step lib eth ⟨agg, .running⟩ (.log vLog w)).2
        = ["📢 Operator Selected: " ++ lib.Hex sel,
           "Private Key: " ++ toString w.D,
           "Shares: " ++ lib.showShares (lib.SplitSecret w.D 5 3 w.coeffs)]
          ++ (match (FetchOperatorIPs lib w.chain yourContractAddress).value with
              | .ok ips => (w.rangeOrder ips).map fun p => lib.Hex p.1 ++ " => " ++ p.2
              | .error _ => []) ∧
      logLines (step lib eth ⟨agg, .running⟩ (.log vLog w)).2
        = (match (FetchOperatorIPs lib w.chain yourContractAddress).value with
            | .ok _ => []
            | .error err => [err]) ∧
      (step lib eth ⟨agg, .running⟩ (.log vLog w)).1.aggregator = agg := by
  have hstep : step lib eth ⟨agg, .running⟩ (.log vLog w) = processLog lib eth agg vLog (.ok w) := rfl
  rw [hstep]
  cases hfetch : (FetchOperatorIPs lib w.chain yourContractAddress).value with
  | error err =>
    rw [processLog_leader_error lib eth agg vLog w sel err hdec heq hfetch]
    exact ⟨rfl, rfl, rfl⟩
  | ok ips =>
    rw [processLog_leader_ok lib eth agg vLog w sel ips hdec heq hfetch,
      sendLoop_of_share lib eth _ 0 share hshare]
    refine ⟨?_, ?_, rfl⟩
    · rw [stdoutLines_append, stdoutLines_leaderPreamble, stdoutLines_peerEffects]
    · rw [logLines_append, logLines_leaderPreamble, logLines_peerEffects]
      rfl

/-- Witness of `leader_output_lines`: the local node is selected, secret 11,
two peers. -/
theorem leader_output_lines_witness :
    sampleLib.unpackOperatorSelected localLog.Data = .ok localAddress ∧
      sampleLib.Hex localAddress = sampleEth ∧
      (sampleLib.SplitSecret 11 5 3 [2, 3])[0]? = some ⟨1, 16⟩ ∧
      (step sampleLib sampleEth ⟨"0x7", .running⟩
          (.log localLog (sampleWorld 11 [2, 3] twoPeers))).1.aggregator = "0x7" :=
  ⟨rfl, rfl, rfl,
    (leader_output_lines sampleLib sampleEth "0x7" localLog (sampleWorld 11 [2, 3] twoPeers)
      localAddress ⟨1, 16⟩ rfl rfl rfl).2.2⟩

/-- Claim C9, refuted as stated. Operator 7 is selected, then the local node
(identity `0xa`): after the second, well-formed event `aggregator` still holds
operator 7. -/
theorem local_selection_keeps_old_leader :
    (sampleLib.unpackOperatorSelected localLog.Data).toOption = some localAddress ∧
      sampleLib.Hex localAddress = "0xa" ∧
      (loop sampleLib sampleEth ⟨"", .running⟩
          [.log otherLog (sampleWorld 11 [2, 3] twoPeers),
           .log localLog (sampleWorld 11 [2, 3] twoPeers)]).1 = ⟨"0x7", .running⟩ := by
  decide

/-- Claim C9, as amended. After a well-formed selection event has been processed,
`aggregator` holds the selected identity when that is another operator, and
its previous value when the event selects the local node; the same holds at a
time when no key can be generated. -/
theorem aggregator_after_selection (lib : Lib) (eth agg : String) (vLog : Log) (w : World)
    (sel : Address) (hdec : lib.unpackOperatorSelected vLog.Data = .ok sel) :
    (step lib eth ⟨agg, .running⟩ (.log vLog w)).1.aggregator
        = (if lib.Hex sel = eth then agg else lib.Hex sel) ∧
      (∀ keyErr : Err, (step lib eth ⟨agg, .running⟩ (.logNoKey vLog keyErr)).1.aggregator
        = (if lib.Hex sel = eth then agg else lib.Hex sel)) := by
  have hstep : step lib eth ⟨agg, .running⟩ (.log vLog w)
      = processLog lib eth agg vLog (.ok w) := rfl
  have hstepNoKey : ∀ keyErr : Err, step lib eth ⟨agg, .running⟩ (.logNoKey vLog keyErr)
      = processLog lib eth agg vLog (.error keyErr) := fun _ => rfl
  refine ⟨?_, ?_⟩
  · rw [hstep]
    by_cases heq : lib.Hex sel = eth
    · rw [if_pos heq]
      cases hfetch : (FetchOperatorIPs lib w.chain yourContractAddress).value with
      | error err => rw [processLog_leader_error lib eth agg vLog w sel err hdec heq hfetch]
      | ok ips => rw [processLog_leader_ok lib eth agg vLog w sel ips hdec heq hfetch]
    · rw [if_neg heq, processLog_follower lib eth agg vLog _ sel hdec heq]
  · intro keyErr
    rw [hstepNoKey]
    by_cases heq : lib.Hex sel = eth
    · rw [if_pos heq, processLog_leader_noKey lib eth agg vLog keyErr sel hdec heq]
    · rw [if_neg heq, processLog_follower lib eth agg vLog _ sel hdec heq]

/-- Witness of `aggregator_after_selection`: operator 7 is selected while
`aggregator` holds `0x5`. -/
theorem aggregator_after_selection_witness :
    sampleLib.unpackOperatorSelected otherLog.Data = .ok 7 ∧
      (step sampleLib sampleEth ⟨"0x5", .running⟩
          (.log otherLog (sampleWorld 11 [2, 3] twoPeers))).1.aggregator
        = if sampleLib.Hex 7 = sampleEth then "0x5" else sampleLib.Hex 7 :=
  ⟨rfl,
    (aggregator_after_selection sampleLib sampleEth "0x5" otherLog
      (sampleWorld 11 [2, 3] twoPeers) 7 rfl).1⟩

/-- Claim C10, refuted as stated. The registry lists operators 1 and 2, and
operator 2 has no endpoint: it is left out of the result, and the query has
written nothing about it. -/
theorem missing_endpoint_is_not_logged :
    endpointOf sampleLib (sampleChain [(1, some 1), (2, none)]) yourContractAddress 2 = none ∧
      (FetchOperatorIPs sampleLib (sampleChain [(1, some 1), (2, none)])
          yourContractAddress).value.toOption = some [(1, "10.0.0.1")] ∧
      (FetchOperatorIPs sampleLib (sampleChain [(1, some 1), (2, none)])
          yourContractAddress).written = [] := by
  decide

/-- Claim C10, as amended. When the `getAllOperators` call and its decoding
succeed, `FetchOperatorIPs` returns a map whose keys are exactly the listed
operators that have an endpoint, each mapped to that endpoint; an operator
without an endpoint is no key, does not make the query fail and changes no
other entry; the exclusion is silent, nothing is written. -/
theorem FetchOperatorIPs_exact_endpoints (lib : Lib) (chain : Chain) (c : Address)
    (out : Bytes) (operators : List Address)
    (hdial : chain.dial = .ok ()) (habi : lib.fetchOperatorIPsABI = .ok ())
    (hcall : call chain c lib.packGetAllOperators = .ok out)
    (hops : lib.unpackGetAllOperators out = .ok operators) :
    ∃ m : GoMap, (FetchOperatorIPs lib chain c).value = .ok m ∧
      (∀ op, GoMap.lookup m op
        = if op ∈ operators then endpointOf lib chain c op else none) ∧
      (m.map Prod.fst).Nodup ∧
      (FetchOperatorIPs lib chain c).written = [] := by
  refine ⟨(fetchLoop lib chain c operators [] []).1, ?_, ?_, ?_, FetchOperatorIPs_written lib chain c⟩
  · simp only [FetchOperatorIPs, hdial, habi, hcall, hops]
  · intro op
    rw [fetchLoop_lookup]
    by_cases hmem : op ∈ operators
    · simp only [hmem, if_true]
      cases endpointOf lib chain c op <;> rfl
    · simp only [hmem, if_false]
      rfl
  · exact fetchLoop_nodup lib chain c operators [] [] List.nodup_nil

/-- Witness of `FetchOperatorIPs_exact_endpoints`: three operators, the second
without an endpoint. -/
theorem FetchOperatorIPs_exact_endpoints_witness :
    (sampleChain [(1, some 1), (2, none), (3, some 3)]).dial = .ok () ∧
      sampleLib.fetchOperatorIPsABI = .ok () ∧
      call (sampleChain [(1, some 1), (2, none), (3, some 3)]) yourContractAddress
          sampleLib.packGetAllOperators = .ok [1, 1, 2, 3] ∧
      sampleLib.unpackGetAllOperators [1, 1, 2, 3] = .ok [1, 2, 3] ∧
      ∃ m : GoMap,
        (FetchOperatorIPs sampleLib (sampleChain [(1, some 1), (2, none), (3, some 3)])
            yourContractAddress).value = .ok m ∧
        (∀ op, GoMap.lookup m op
          = if op ∈ [1, 2, 3] then
              endpointOf sampleLib (sampleChain [(1, some 1), (2, none), (3, some 3)])
                yourContractAddress op
            else none) ∧
        (m.map Prod.fst).Nodup ∧
        (FetchOperatorIPs sampleLib (sampleChain [(1, some 1), (2, none), (3, some 3)])
            yourContractAddress).written = [] :=
  ⟨rfl, rfl, rfl, rfl,
    FetchOperatorIPs_exact_endpoints sampleLib
      (sampleChain [(1, some 1), (2, none), (3, some 3)]) yourContractAddress [1, 1, 2, 3]
      [1, 2, 3] rfl rfl rfl rfl⟩

end EmberOperator
